import Mathlib

/-!
Verification of the `Port-scanner` repository (`port_scanner/scanner.py`)
against its natural-language specification.

The Python code is shallowly embedded: pure helpers become Lean functions;
socket interaction is abstracted by an explicit network-outcome parameter
(`ProbeNet`); Python exceptions become `Option`; Python's `set` of ports
becomes a duplicate-free `List ℤ` and `sorted` becomes
`List.insertionSort`.
-/

namespace PortScan

/-! ## Python string primitives used by `parse_ports`.

`str.strip()` removes leading/trailing whitespace; for the ASCII inputs
relevant here the whitespace set is `" \t\n\r\x0b\x0c"`. -/

/-- The ASCII whitespace characters stripped by Python's `str.strip()`. -/
def isPySpace (c : Char) : Bool :=
  c == ' ' || c == '\t' || c == '\n' || c == '\r' || c == '\x0b' || c == '\x0c'

/-- Python `s.strip()` on a character list. -/
def pyStrip (s : List Char) : List Char :=
  ((s.dropWhile isPySpace).reverse.dropWhile isPySpace).reverse

/-- Python `s.split(sep)` for a single-character separator: splits at every
occurrence of `sep`; `"".split(sep) = [""]`, and empty chunks are kept. -/
def pySplit (sep : Char) : List Char → List (List Char)
  | [] => [[]]
  | c :: rest =>
    if c = sep then [] :: pySplit sep rest
    else
      match pySplit sep rest with
      | [] => [[c]]
      | t :: ts => (c :: t) :: ts

/-- Validity of the digit part of a Python integer literal after its first
digit: digits, with single underscores allowed only between digits
(`int("1_2") = 12`, but `int("1__2")` and `int("1_")` raise). -/
def pyDigitsOk : List Char → Bool
  | [] => true
  | c :: rest =>
    if c = '_' then
      match rest with
      | [] => false
      | c2 :: rest2 => c2.isDigit && pyDigitsOk rest2
    else c.isDigit && pyDigitsOk rest

/-- An unsigned Python integer literal: a digit followed by digits with
optional single interior underscores. -/
def pyIntLitOk : List Char → Bool
  | [] => false
  | c :: rest => c.isDigit && pyDigitsOk rest

/-- Numeric value of a digit/underscore sequence (underscores skipped). -/
def digitsValue (p : List Char) : ℤ :=
  p.foldl (fun acc c => if c = '_' then acc else acc * 10 + (c.toNat - 48)) 0

/-- Python `int(s)`: strip whitespace, optional sign, then an unsigned
integer literal; `none` models the `ValueError` raise. -/
def pyInt? (s : List Char) : Option ℤ :=
  match pyStrip s with
  | '+' :: rest => if pyIntLitOk rest then some (digitsValue rest) else none
  | '-' :: rest => if pyIntLitOk rest then some (-(digitsValue rest)) else none
  | t => if pyIntLitOk t then some (digitsValue t) else none

/-! ## `PortScanner.parse_ports`

Python's `set` of ports is modelled as a duplicate-free `List ℤ`:
`set.add` inserts only when absent, `set.update(range(...))` adds each
element of the range, and `sorted` is `List.insertionSort (· ≤ ·)`. -/

/-- Python `set.add x`: insert `x` unless already present. -/
def setAdd (s : List ℤ) (x : ℤ) : List ℤ :=
  if x ∈ s then s else s ++ [x]

/-- Python `range(a, b + 1)` over integers: the list `[a, a+1, ..., b]`
(empty when `b < a`). -/
def iccList (a b : ℤ) : List ℤ :=
  (List.range (b + 1 - a).toNat).map (fun i : ℕ => a + (i : ℤ))

/-- Python `set.update xs`: add every element of `xs`. -/
def setUpdate (s : List ℤ) (xs : List ℤ) : List ℤ :=
  xs.foldl setAdd s

/-- One loop iteration of `parse_ports` on an already-stripped token `part`:
`if '-' in part: start, end = map(int, part.split('-')); ports.update(range(start, end+1))`
`else:` `if part: ports.add(int(part))`. `none` models a `ValueError`
(non-numeric piece, or a `'-'`-token that does not split into exactly two
pieces). -/
def parsePortToken (ports : List ℤ) (part : List Char) : Option (List ℤ) :=
  if part.contains '-' then
    match pySplit '-' part with
    | [a, b] => do
      let s ← pyInt? a
      let e ← pyInt? b
      pure (setUpdate ports (iccList s e))
    | _ => none
  else if part.isEmpty then
    some ports
  else do
    let p ← pyInt? part
    pure (setAdd ports p)

/-- The stripped comma-separated tokens of a port specification. -/
def strippedParts (s : String) : List (List Char) :=
  (pySplit ',' s.toList).map pyStrip

/-- The function `PortScanner.parse_ports`: build the `set` of ports over all tokens and
return `sorted(ports)`; `none` models a raised `ValueError`. -/
def parse_ports (s : String) : Option (List ℤ) :=
  ((strippedParts s).foldlM parsePortToken ([] : List ℤ)).map
    (List.insertionSort (· ≤ ·))

/-- Does `parse_ports`' loop body accept the (already-stripped) token
`part`? This mirrors the branch structure of `parsePortToken`: a `'-'`-token
must split into exactly two `int()`-parseable pieces; any other nonempty
token must be `int()`-parseable; an empty token is skipped, hence accepted. -/
def tokenOk (part : List Char) : Bool :=
  if part.contains '-' then
    match pySplit '-' part with
    | [a, b] => (pyInt? a).isSome && (pyInt? b).isSome
    | _ => false
  else part.isEmpty || (pyInt? part).isSome

/-- A plain-integer token of the spec's port grammar: a nonempty string of
ASCII digits. -/
def digitsTok (p : List Char) : Bool :=
  !p.isEmpty && p.all Char.isDigit

/-- A well-formed token of the spec's port grammar: an integer or
`int-int`. -/
def wellFormedToken (p : List Char) : Bool :=
  digitsTok p ||
    (match pySplit '-' p with
     | [a, b] => digitsTok a && digitsTok b
     | _ => false)

/-- Denotation of a well-formed token: an integer token denotes itself, an
`int-int` token denotes the inclusive range. -/
def tokenDen (p : List Char) : List ℤ :=
  if digitsTok p then [digitsValue p]
  else
    match pySplit '-' p with
    | [a, b] => iccList (digitsValue a) (digitsValue b)
    | _ => []

/-! ## The service table and scan results -/

/-- The dictionary `PortScanner.COMMON_PORTS`: the static well-known-port table. -/
def COMMON_PORTS : List (ℤ × String) :=
  [(20, "FTP"), (21, "FTP"), (22, "SSH"), (23, "Telnet"), (25, "SMTP"),
   (53, "DNS"), (80, "HTTP"), (110, "POP3"), (143, "IMAP"), (443, "HTTPS"),
   (445, "SMB"), (3306, "MySQL"), (3389, "RDP"), (5432, "PostgreSQL"),
   (8080, "HTTP-Proxy")]

/-- Dictionary lookup `COMMON_PORTS[port]`; `none` means `port not in COMMON_PORTS`. -/
def commonService (port : ℤ) : Option String :=
  COMMON_PORTS.lookup port

/-- The `ScanResult` dataclass. -/
structure ScanResult where
  host : String
  port : ℤ
  is_open : Bool
  service : String := ""
  banner : String := ""
  scan_time : String := ""
deriving DecidableEq

/-! ## UTF-8 decoding, Python-style

`bytes.decode('utf-8', errors='ignore')` drops undecodable byte sequences;
`errors='replace'` would substitute U+FFFD for each of them. Both are the
same decoder with a different error action, so the decoder is parametrised
by the characters emitted at an error. Error recovery follows CPython's
maximal-subpart rule: an invalid lead byte consumes one byte; a truncated or
broken multi-byte sequence consumes its valid prefix and decoding resumes at
the first offending byte. -/

/-- Is `b` a valid UTF-8 continuation byte (`0x80`–`0xBF`)? -/
def contOk (b : Nat) : Bool := 0x80 ≤ b && b ≤ 0xBF

/-- Lower bound for the second byte of a 3/4-byte sequence with lead `b1`
(excludes overlong encodings). -/
def cont2Lo (b1 : Nat) : Nat :=
  if b1 = 0xE0 then 0xA0 else if b1 = 0xF0 then 0x90 else 0x80

/-- Upper bound for the second byte of a 3/4-byte sequence with lead `b1`
(excludes surrogates and code points above U+10FFFF). -/
def cont2Hi (b1 : Nat) : Nat :=
  if b1 = 0xED then 0x9F else if b1 = 0xF4 then 0x8F else 0xBF

/-- UTF-8 decoding with error action `repl` (emitted once per error). -/
def utf8DecodeWith (repl : List Char) : List Nat → List Char
  | [] => []
  | b1 :: rest =>
    if b1 < 0x80 then Char.ofNat b1 :: utf8DecodeWith repl rest
    else if 0xC2 ≤ b1 ∧ b1 ≤ 0xDF then
      match rest with
      | [] => repl
      | b2 :: rest2 =>
        if contOk b2 then
          Char.ofNat ((b1 - 0xC0) * 64 + (b2 - 0x80)) :: utf8DecodeWith repl rest2
        else repl ++ utf8DecodeWith repl (b2 :: rest2)
    else if 0xE0 ≤ b1 ∧ b1 ≤ 0xEF then
      match rest with
      | [] => repl
      | b2 :: rest2 =>
        if cont2Lo b1 ≤ b2 ∧ b2 ≤ cont2Hi b1 then
          match rest2 with
          | [] => repl
          | b3 :: rest3 =>
            if contOk b3 then
              Char.ofNat ((b1 - 0xE0) * 4096 + (b2 - 0x80) * 64 + (b3 - 0x80)) ::
                utf8DecodeWith repl rest3
            else repl ++ utf8DecodeWith repl (b3 :: rest3)
        else repl ++ utf8DecodeWith repl (b2 :: rest2)
    else if 0xF0 ≤ b1 ∧ b1 ≤ 0xF4 then
      match rest with
      | [] => repl
      | b2 :: rest2 =>
        if cont2Lo b1 ≤ b2 ∧ b2 ≤ cont2Hi b1 then
          match rest2 with
          | [] => repl
          | b3 :: rest3 =>
            if contOk b3 then
              match rest3 with
              | [] => repl
              | b4 :: rest4 =>
                if contOk b4 then
                  Char.ofNat ((b1 - 0xF0) * 262144 + (b2 - 0x80) * 4096 +
                      (b3 - 0x80) * 64 + (b4 - 0x80)) :: utf8DecodeWith repl rest4
                else repl ++ utf8DecodeWith repl (b4 :: rest4)
            else repl ++ utf8DecodeWith repl (b3 :: rest3)
        else repl ++ utf8DecodeWith repl (b2 :: rest2)
    else repl ++ utf8DecodeWith repl rest

/-- Python `bytes.decode('utf-8', errors='ignore')`: drop undecodable sequences. -/
def utf8DecodeIgnore (bytes : List Nat) : List Char :=
  utf8DecodeWith [] bytes

/-- Modelled from the spec: "Decode permissively (invalid byte sequences are
replaced, not fatal)" — `errors='replace'`, emitting U+FFFD per error; this
is the decode the specification describes, for comparison with the code's
`utf8DecodeIgnore`. -/
def utf8DecodeReplace (bytes : List Nat) : List Char :=
  utf8DecodeWith ['�'] bytes

/-- Python `banner.split('\n')[0]`: the text up to the first newline. -/
def pyFirstLine (s : List Char) : List Char :=
  s.takeWhile (fun c => c ≠ '\n')

/-! ## `PortScanner.scan_port`

Socket behaviour is abstracted by `ProbeNet`, the outcome the network hands
the probe; everything else in `scan_port` is deterministic. -/

/-- Network outcome of one probe:
* `connRaise` — socket setup or `connect_ex` raised (`socket.gaierror` etc.),
  absorbed by the outer `except`;
* `connFail` — `connect_ex` returned a nonzero error code;
* `connOk bio` — `connect_ex` returned `0`; `bio = none` means `send`/`recv`
  raised (absorbed by the inner `except`), `bio = some bytes` means `recv`
  returned `bytes` (at most 1024 of them). -/
inductive ProbeNet where
  | connRaise : ProbeNet
  | connFail : ProbeNet
  | connOk : Option (List Nat) → ProbeNet
deriving DecidableEq

/-- The method `PortScanner.scan_port(host, port)` with the probe's issue time `now`
(from `datetime.now()`) and the network's behaviour `net` made explicit.
The Python mutation of the local `result` becomes `let`-rebinding; every
`except` arm returns the result built so far. -/
def scan_port (host : String) (port : ℤ) (now : String) (net : ProbeNet) :
    ScanResult :=
  let result : ScanResult := { host := host, port := port, is_open := false,
                               scan_time := now }
  match net with
  | .connRaise => result
  | .connFail => { result with is_open := false }
  | .connOk bio =>
    let result := { result with is_open := true }
    match commonService port with
    | none => result
    | some svc =>
      let result := { result with service := svc }
      match bio with
      | none => result
      | some bytes =>
        let banner := pyStrip (utf8DecodeIgnore bytes)
        if banner.isEmpty then result
        else { result with banner := String.mk (pyFirstLine banner) }

/-- The banner-processing pipeline of `scan_port` as a standalone function:
`recv(1024).decode('utf-8', errors='ignore').strip()`, then, if non-empty,
its first line. -/
def bannerOfBytes (bytes : List Nat) : String :=
  let banner := pyStrip (utf8DecodeIgnore bytes)
  if banner.isEmpty then "" else String.mk (pyFirstLine banner)

/-! ## `PortScanner.scan_host` — result aggregation

`as_completed` yields the finished probes in a nondeterministic completion
order; the aggregation loop is modelled as a fold of `record` over that
completion-order list, starting from the scanner's current `self.results`. -/

/-- One iteration of the aggregation loop: keep open results, drop the rest
(the `print` side effects carry no state). -/
def record (results : List ScanResult) (r : ScanResult) : List ScanResult :=
  if r.is_open then results ++ [r] else results

/-- The aggregation loop of `scan_host`: fold `record` over the completed
probes in completion order. -/
def scan_host (results : List ScanResult) (completed : List ScanResult) :
    List ScanResult :=
  completed.foldl record results

/-! ## Exporters

`to_json` and `to_csv` are modelled at the structural level: a JSON document
is a list of objects (association lists of string/integer fields) and a CSV
file is its list of rows, each a list of string fields; an exporter that
performs no write returns `none`. -/

/-- A JSON field value as produced by `to_json`: a string or an integer. -/
inductive JField where
  | s : String → JField
  | i : ℤ → JField
deriving DecidableEq

/-- The object `to_json` builds for one result: exactly the five fields
`host, port, service, banner, scan_time` (`is_open` is omitted). -/
def jsonRecord (r : ScanResult) : List (String × JField) :=
  [("host", .s r.host), ("port", .i r.port), ("service", .s r.service),
   ("banner", .s r.banner), ("scan_time", .s r.scan_time)]

/-- The document `PortScanner.to_json` writes: the array of per-result objects. -/
def to_json (results : List ScanResult) : List (List (String × JField)) :=
  results.map jsonRecord

/-- The method `PortScanner.to_json` as a file write: it opens and writes
unconditionally, so it always produces a document (`[]` when there are no
results). -/
def to_json_write (results : List ScanResult) :
    Option (List (List (String × JField))) :=
  some (to_json results)

/-- The CSV header written by `csv.DictWriter(fieldnames=...)`. -/
def csvFieldnames : List String :=
  ["host", "port", "service", "banner", "scan_time"]

/-- The CSV row for one result; `DictWriter.writerow` stringifies the
integer `port`. -/
def csvRow (r : ScanResult) : List String :=
  [r.host, toString r.port, r.service, r.banner, r.scan_time]

/-- The method `PortScanner.to_csv` as a file write: `if not self.results: return`
(no file), else header row followed by one row per result. -/
def to_csv (results : List ScanResult) : Option (List (List String)) :=
  if results.isEmpty then none
  else some (csvFieldnames :: results.map csvRow)

/-- Re-parsing a JSON object: read a string field `k`. -/
def jLookupStr (o : List (String × JField)) (k : String) : Option String :=
  match o.lookup k with
  | some (.s v) => some v
  | _ => none

/-- Re-parsing a JSON object: read an integer field `k`. -/
def jLookupInt (o : List (String × JField)) (k : String) : Option ℤ :=
  match o.lookup k with
  | some (.i v) => some v
  | _ => none

/-- Re-parsing one exported JSON object into its
`(host, port, service, banner, scan_time)` tuple. -/
def jsonReadRecord (o : List (String × JField)) :
    Option (String × ℤ × String × String × String) := do
  let h ← jLookupStr o "host"
  let p ← jLookupInt o "port"
  let sv ← jLookupStr o "service"
  let b ← jLookupStr o "banner"
  let t ← jLookupStr o "scan_time"
  pure (h, p, sv, b, t)

/-! ## Lemmas: Python string primitives -/

theorem dropWhile_eq_self_of_none {q : Char → Bool} :
    ∀ {l : List Char}, (∀ c ∈ l, q c = false) → l.dropWhile q = l
  | [], _ => rfl
  | a :: t, h => by simp [List.dropWhile, h a (by simp)]

theorem pyStrip_eq_self {p : List Char} (h : ∀ c ∈ p, isPySpace c = false) :
    pyStrip p = p := by
  unfold pyStrip
  rw [dropWhile_eq_self_of_none h,
    dropWhile_eq_self_of_none (fun c hc => h c (List.mem_reverse.mp hc)),
    List.reverse_reverse]

theorem isPySpace_eq_false_of_isDigit {c : Char} (h : c.isDigit = true) :
    isPySpace c = false := by
  by_contra hc
  rw [Bool.not_eq_false] at hc
  simp only [isPySpace, Bool.or_eq_true, beq_iff_eq] at hc
  rcases hc with ((((rfl | rfl) | rfl) | rfl) | rfl) | rfl <;>
    exact absurd h (by decide)

theorem pyDigitsOk_of_all_digits :
    ∀ {l : List Char}, (∀ c ∈ l, c.isDigit = true) → pyDigitsOk l = true
  | [], _ => rfl
  | c :: t, h => by
    have hc : c.isDigit = true := h c (by simp)
    have hne : c ≠ '_' := by rintro rfl; exact absurd hc (by decide)
    have ht := pyDigitsOk_of_all_digits (fun x hx => h x (List.mem_cons_of_mem c hx))
    unfold pyDigitsOk
    rw [if_neg hne, hc, ht]
    rfl

theorem all_digits_of_digitsTok {p : List Char} (h : digitsTok p = true) :
    ∀ c ∈ p, c.isDigit = true := by
  simp only [digitsTok, Bool.and_eq_true, List.all_eq_true, decide_eq_true_eq] at h
  exact fun c hc => h.2 c hc

theorem ne_nil_of_digitsTok {p : List Char} (h : digitsTok p = true) : p ≠ [] := by
  rintro rfl
  simp [digitsTok] at h

theorem pyIntLitOk_of_digitsTok {p : List Char} (h : digitsTok p = true) :
    pyIntLitOk p = true := by
  cases p with
  | nil => exact absurd rfl (ne_nil_of_digitsTok h)
  | cons c t =>
    have hall := all_digits_of_digitsTok h
    have hc : c.isDigit = true := hall c (by simp)
    have ht := pyDigitsOk_of_all_digits (fun x hx => hall x (List.mem_cons_of_mem c hx))
    simp [pyIntLitOk, hc, ht]

theorem pyInt?_of_digitsTok {p : List Char} (h : digitsTok p = true) :
    pyInt? p = some (digitsValue p) := by
  have hall := all_digits_of_digitsTok h
  have hstrip : pyStrip p = p :=
    pyStrip_eq_self (fun c hc => isPySpace_eq_false_of_isDigit (hall c hc))
  cases hp : p with
  | nil => exact absurd hp (ne_nil_of_digitsTok h)
  | cons c t =>
    have hc : c.isDigit = true := hall c (by rw [hp]; simp)
    have hplus : c ≠ '+' := by rintro rfl; exact absurd hc (by decide)
    have hminus : c ≠ '-' := by rintro rfl; exact absurd hc (by decide)
    rw [← hp]
    unfold pyInt?
    rw [hstrip, hp]
    split
    · rename_i rest heq
      injection heq with h1 h2
      exact absurd h1 hplus
    · rename_i rest heq
      injection heq with h1 h2
      exact absurd h1 hminus
    · rw [← hp, if_pos (pyIntLitOk_of_digitsTok h)]

theorem contains_dash_eq_false_of_digitsTok {p : List Char}
    (h : digitsTok p = true) : p.contains '-' = false := by
  by_contra hc
  rw [Bool.not_eq_false] at hc
  exact absurd (all_digits_of_digitsTok h '-' (List.elem_iff.mp hc)) (by decide)

theorem pySplit_ne_nil (sep : Char) : ∀ l : List Char, pySplit sep l ≠ []
  | [] => by simp [pySplit]
  | c :: rest => by
    unfold pySplit
    split
    · simp
    · split <;> simp

theorem pySplit_of_not_mem {sep : Char} :
    ∀ {l : List Char}, sep ∉ l → pySplit sep l = [l]
  | [], _ => rfl
  | c :: rest, h => by
    have hcs : c ≠ sep := fun hc => h (hc ▸ List.mem_cons_self c rest)
    have hr : sep ∉ rest := fun hm => h (List.mem_cons_of_mem c hm)
    unfold pySplit
    rw [if_neg hcs, pySplit_of_not_mem hr]

theorem pySplit_append {sep : Char} :
    ∀ {a : List Char} (b : List Char), sep ∉ a →
      pySplit sep (a ++ sep :: b) = a :: pySplit sep b
  | [], b, _ => by simp [pySplit]
  | c :: a', b, h => by
    have hcs : c ≠ sep := fun hc => h (hc ▸ List.mem_cons_self c a')
    have ha : sep ∉ a' := fun hm => h (List.mem_cons_of_mem c hm)
    rw [List.cons_append]
    simp only [pySplit, if_neg hcs, pySplit_append b ha]

/-! ## Lemmas: the list-as-set operations -/

theorem mem_setAdd {s : List ℤ} {y x : ℤ} : x ∈ setAdd s y ↔ x ∈ s ∨ x = y := by
  unfold setAdd
  split
  · rename_i hy
    constructor
    · exact Or.inl
    · rintro (hx | rfl)
      · exact hx
      · exact hy
  · simp

theorem nodup_setAdd {s : List ℤ} {y : ℤ} (h : s.Nodup) : (setAdd s y).Nodup := by
  unfold setAdd
  split
  · exact h
  · rename_i hy
    simp [List.nodup_append, h, hy]

theorem mem_setUpdate :
    ∀ {xs s : List ℤ} {x : ℤ}, x ∈ setUpdate s xs ↔ x ∈ s ∨ x ∈ xs
  | [], s, x => by simp [setUpdate]
  | y :: ys, s, x => by
    have ih : x ∈ setUpdate (setAdd s y) ys ↔ x ∈ setAdd s y ∨ x ∈ ys :=
      mem_setUpdate
    show x ∈ setUpdate (setAdd s y) ys ↔ _
    rw [ih, mem_setAdd]
    simp only [List.mem_cons]
    tauto

theorem nodup_setUpdate :
    ∀ {xs s : List ℤ}, s.Nodup → (setUpdate s xs).Nodup
  | [], _, h => h
  | y :: ys, s, h => @nodup_setUpdate ys (setAdd s y) (nodup_setAdd h)

theorem mem_iccList {a b x : ℤ} : x ∈ iccList a b ↔ a ≤ x ∧ x ≤ b := by
  unfold iccList
  constructor
  · intro hx
    simp only [List.mem_map, List.mem_range] at hx
    obtain ⟨i, hi, rfl⟩ := hx
    omega
  · intro hx
    simp only [List.mem_map, List.mem_range]
    exact ⟨(x - a).toNat, by omega, by omega⟩

/-! ## Lemmas: `parsePortToken` and the parsing loop -/

theorem parsePortToken_none_of_tokenOk_false {part : List Char}
    (h : tokenOk part = false) (acc : List ℤ) :
    parsePortToken acc part = none := by
  by_cases hc : part.contains '-' = true
  · rw [tokenOk, if_pos hc] at h
    rw [parsePortToken, if_pos hc]
    cases hsp : pySplit '-' part with
    | nil => exact absurd hsp (pySplit_ne_nil '-' part)
    | cons t ts =>
      cases ts with
      | nil => rfl
      | cons t2 ts2 =>
        cases ts2 with
        | cons t3 ts3 => rfl
        | nil =>
          rw [hsp] at h
          simp only [] at h ⊢
          cases ht : pyInt? t with
          | none => simp [ht]
          | some v =>
            cases ht2 : pyInt? t2 with
            | none => simp [ht, ht2]
            | some w => simp [ht, ht2] at h
  · rw [Bool.not_eq_true] at hc
    rw [tokenOk, if_neg (by rw [hc]; exact Bool.false_ne_true)] at h
    rw [parsePortToken, if_neg (by rw [hc]; exact Bool.false_ne_true)]
    rw [Bool.or_eq_false_iff] at h
    rw [if_neg (by rw [h.1]; exact Bool.false_ne_true)]
    cases hp : pyInt? part with
    | none => simp [hp]
    | some v =>
      rw [hp] at h
      simp at h

theorem foldlM_parsePortToken_none {parts : List (List Char)} {p : List Char}
    (hp : p ∈ parts) (hfail : ∀ acc, parsePortToken acc p = none) :
    ∀ a, parts.foldlM parsePortToken a = none := by
  induction parts with
  | nil => cases hp
  | cons q qs ih =>
    intro a
    rw [List.foldlM_cons]
    rcases List.mem_cons.mp hp with rfl | hmem
    · rw [hfail a]; rfl
    · cases hq : parsePortToken a q with
      | none => rfl
      | some a' =>
        show qs.foldlM parsePortToken a' = none
        exact ih hmem a'

theorem parsePortToken_of_wellFormed {part : List Char}
    (h : wellFormedToken part = true) (acc : List ℤ) :
    ∃ s, parsePortToken acc part = some s ∧
      (acc.Nodup → s.Nodup) ∧
      ∀ x, x ∈ s ↔ x ∈ acc ∨ x ∈ tokenDen part := by
  by_cases hd : digitsTok part = true
  · have hc : part.contains '-' = false := contains_dash_eq_false_of_digitsTok hd
    have hne : part.isEmpty = false := by
      cases hpart : part with
      | nil => exact absurd hpart (ne_nil_of_digitsTok hd)
      | cons c t => rfl
    refine ⟨setAdd acc (digitsValue part), ?_, fun hn => nodup_setAdd hn, ?_⟩
    · rw [parsePortToken, if_neg (by rw [hc]; exact Bool.false_ne_true),
        if_neg (by rw [hne]; exact Bool.false_ne_true),
        pyInt?_of_digitsTok hd]
      rfl
    · intro x
      rw [mem_setAdd]
      simp [tokenDen, hd]
  · rw [wellFormedToken, Bool.or_eq_true] at h
    rcases h with h | h
    · exact absurd h hd
    by_cases hc : part.contains '-' = true
    · cases hsp : pySplit '-' part with
      | nil => exact absurd hsp (pySplit_ne_nil '-' part)
      | cons t ts =>
        cases ts with
        | nil =>
          rw [hsp] at h
          simp only [] at h
          exact absurd h (by decide)
        | cons t2 ts2 =>
          cases ts2 with
          | cons t3 ts3 =>
            rw [hsp] at h
            simp only [] at h
            exact absurd h (by decide)
          | nil =>
            rw [hsp] at h
            simp only [] at h
            rw [Bool.and_eq_true] at h
            refine ⟨setUpdate acc (iccList (digitsValue t) (digitsValue t2)),
              ?_, fun hn => nodup_setUpdate hn, ?_⟩
            · rw [parsePortToken, if_pos hc, hsp]
              simp only []
              rw [pyInt?_of_digitsTok h.1, pyInt?_of_digitsTok h.2]
              rfl
            · intro x
              rw [mem_setUpdate, tokenDen, if_neg hd, hsp]
    · rw [Bool.not_eq_true] at hc
      have hnm : '-' ∉ part := fun hm => by
        have hcont : part.contains '-' = true := List.elem_iff.mpr hm
        rw [hc] at hcont
        exact absurd hcont (by decide)
      rw [pySplit_of_not_mem hnm] at h
      simp only [] at h
      exact absurd h (by decide)

theorem foldlM_parsePortToken_of_wellFormed :
    ∀ {parts : List (List Char)},
      (∀ p ∈ parts, wellFormedToken p = true) → ∀ acc : List ℤ,
        ∃ s, parts.foldlM parsePortToken acc = some s ∧
          (acc.Nodup → s.Nodup) ∧
          (∀ x, x ∈ s ↔ x ∈ acc ∨ ∃ p ∈ parts, x ∈ tokenDen p)
  | [], _, acc => ⟨acc, rfl, id, by simp⟩
  | q :: qs, h, acc => by
    obtain ⟨s1, hs1, hn1, hm1⟩ := parsePortToken_of_wellFormed (h q (by simp)) acc
    obtain ⟨s, hs, hn, hm⟩ := foldlM_parsePortToken_of_wellFormed
      (fun p hp => h p (List.mem_cons_of_mem q hp)) s1
    refine ⟨s, ?_, fun ha => hn (hn1 ha), ?_⟩
    · rw [List.foldlM_cons, hs1]
      exact hs
    · intro x
      rw [hm x]
      constructor
      · rintro (hx | ⟨p, hp, hxp⟩)
        · rcases (hm1 x).mp hx with hx' | hx'
          · exact Or.inl hx'
          · exact Or.inr ⟨q, by simp, hx'⟩
        · exact Or.inr ⟨p, List.mem_cons_of_mem q hp, hxp⟩
      · rintro (hx | ⟨p, hp, hxp⟩)
        · exact Or.inl ((hm1 x).mpr (Or.inl hx))
        · rcases List.mem_cons.mp hp with rfl | hp'
          · exact Or.inl ((hm1 x).mpr (Or.inr hxp))
          · exact Or.inr ⟨p, hp', hxp⟩

theorem parse_ports_of_wellFormed {s : String}
    (h : ∀ p ∈ strippedParts s, wellFormedToken p = true) :
    ∃ l, parse_ports s = some l ∧ l.Sorted (· ≤ ·) ∧ l.Nodup ∧
      (∀ x : ℤ, x ∈ l ↔ ∃ p ∈ strippedParts s, x ∈ tokenDen p) := by
  obtain ⟨st, hst, hn, hm⟩ := foldlM_parsePortToken_of_wellFormed h ([] : List ℤ)
  refine ⟨List.insertionSort (· ≤ ·) st, ?_,
    List.sorted_insertionSort _ st, ?_, ?_⟩
  · rw [parse_ports, hst]
    rfl
  · exact (List.perm_insertionSort _ st).nodup_iff.mpr (hn List.nodup_nil)
  · intro x
    rw [(List.perm_insertionSort _ st).mem_iff, hm x]
    simp

/-! ## The claims about `parse_ports` -/

/-- Claim C1, as stated, is false on the code: a reversed range such as
`"100-99"` does not signal a parse failure — `range(100, 99 + 1)` is simply
empty, so `parse_ports` silently returns a result (here the empty list). -/
theorem claim_C1_counterexample : parse_ports "100-99" = some [] := by decide

/-- Claim C1 (amended): `parse_ports` raises `ValueError` whenever some
stripped token is rejected by its loop body — a nonempty `'-'`-free token
that `int()` rejects, or a `'-'`-token that does not split into exactly two
`int()`-parseable pieces. A reversed numeric range, however, is accepted and
merely contributes no ports. -/
theorem claim_C1_parse_failure (s : String)
    (h : ∃ p ∈ strippedParts s, tokenOk p = false) :
    parse_ports s = none := by
  obtain ⟨p, hp, hfail⟩ := h
  rw [parse_ports,
    foldlM_parsePortToken_none hp (parsePortToken_none_of_tokenOk_false hfail) []]
  rfl

/-- Witness for `claim_C1_parse_failure` at the concrete input
`"22,http,80"`, whose token `"http"` is non-numeric. -/
theorem claim_C1_parse_failure_witness :
    (∃ p ∈ strippedParts "22,http,80", tokenOk p = false) ∧
    parse_ports "22,http,80" = none :=
  ⟨by decide, claim_C1_parse_failure "22,http,80" (by decide)⟩

/-- Claim C3: on every well-formed port specification (comma-separated
integer and `int-int` tokens), `parse_ports` succeeds and returns the
deduplicated, ascending union of the tokens' denotations; in particular
`"20-22,80"` yields `[20, 21, 22, 80]` and `"80,22,80"` yields `[22, 80]`. -/
theorem claim_C3_parse_ports_sorted_dedup_union (s : String)
    (h : ∀ p ∈ strippedParts s, wellFormedToken p = true) :
    (∃ l, parse_ports s = some l ∧ l.Sorted (· ≤ ·) ∧ l.Nodup ∧
      (∀ x : ℤ, x ∈ l ↔ ∃ p ∈ strippedParts s, x ∈ tokenDen p)) ∧
    parse_ports "20-22,80" = some [20, 21, 22, 80] ∧
    parse_ports "80,22,80" = some [22, 80] :=
  ⟨parse_ports_of_wellFormed h, by decide, by decide⟩

/-- Witness for `claim_C3_parse_ports_sorted_dedup_union` at the concrete
input `"1-3,2,9"`. -/
theorem claim_C3_witness :
    (∀ p ∈ strippedParts "1-3,2,9", wellFormedToken p = true) ∧
    (∃ l, parse_ports "1-3,2,9" = some l ∧ l.Sorted (· ≤ ·) ∧ l.Nodup ∧
      (∀ x : ℤ, x ∈ l ↔ ∃ p ∈ strippedParts "1-3,2,9", x ∈ tokenDen p)) :=
  ⟨by decide, (claim_C3_parse_ports_sorted_dedup_union "1-3,2,9" (by decide)).1⟩

/-- Claim C10: `parse_ports` performs no range validation — `"70000"`
parses to `[70000]`, above the valid TCP maximum 65535 — and empty tokens
(trailing or doubled commas) are silently skipped rather than rejected. -/
theorem claim_C10_no_range_validation :
    parse_ports "70000" = some [70000] ∧ (65535 : ℤ) < 70000 ∧
    parse_ports "80," = some [80] ∧
    parse_ports "80,,22," = some [22, 80] := by
  decide

/-! ## Lemmas and claims: `scan_port` -/

theorem scan_port_connOk_is_open (host : String) (port : ℤ) (now : String)
    (bio : Option (List Nat)) :
    (scan_port host port now (.connOk bio)).is_open = true := by
  cases hcs : commonService port with
  | none => simp [scan_port, hcs]
  | some svc =>
    cases bio with
    | none => simp [scan_port, hcs]
    | some bytes =>
      by_cases hb : (pyStrip (utf8DecodeIgnore bytes)).isEmpty <;>
        simp [scan_port, hcs, hb]

/-- Claim C4: for every host and every port in 0–65535, a connection-level
failure (a raised socket error, or a nonzero `connect_ex` code) is absorbed:
`scan_port` is a total function — it returns a `ScanResult` instead of
propagating the exception — and the result has `is_open = false` with empty
`service` and `banner`. -/
theorem claim_C4_failures_absorbed (host : String) (port : ℤ) (now : String)
    (net : ProbeNet) (hlo : 0 ≤ port) (hhi : port ≤ 65535)
    (hfail : net = .connRaise ∨ net = .connFail) :
    scan_port host port now net =
      { host := host, port := port, is_open := false, service := "",
        banner := "", scan_time := now } := by
  rcases hfail with rfl | rfl <;> rfl

/-- Witness for `claim_C4_failures_absorbed`: a refused connection on
port 80 of `"localhost"`. -/
theorem claim_C4_witness :
    (0 : ℤ) ≤ 80 ∧ (80 : ℤ) ≤ 65535 ∧
    scan_port "localhost" 80 "t" .connFail =
      { host := "localhost", port := 80, is_open := false, service := "",
        banner := "", scan_time := "t" } :=
  ⟨by decide, by decide,
    claim_C4_failures_absorbed "localhost" 80 "t" .connFail (by decide)
      (by decide) (Or.inr rfl)⟩

/-- Claim C5: every `ScanResult` produced by `scan_port` satisfies the
invariant that `is_open = false` implies `service` and `banner` are both
empty. -/
theorem claim_C5_closed_result_invariant (host : String) (port : ℤ)
    (now : String) (net : ProbeNet)
    (h : (scan_port host port now net).is_open = false) :
    (scan_port host port now net).service = "" ∧
    (scan_port host port now net).banner = "" := by
  cases net with
  | connRaise => exact ⟨rfl, rfl⟩
  | connFail => exact ⟨rfl, rfl⟩
  | connOk bio =>
    rw [scan_port_connOk_is_open host port now bio] at h
    exact absurd h (by decide)

/-- Witness for `claim_C5_closed_result_invariant`: a probe whose
connection attempt raised. -/
theorem claim_C5_witness :
    (scan_port "h" 80 "t" .connRaise).is_open = false ∧
    (scan_port "h" 80 "t" .connRaise).service = "" ∧
    (scan_port "h" 80 "t" .connRaise).banner = "" :=
  ⟨by decide, claim_C5_closed_result_invariant "h" 80 "t" .connRaise (by decide)⟩

/-- Claim C2, as stated, is false on the code: banner capture IS restricted
to ports in `COMMON_PORTS`. Here port 9999 is open and the peer has data
(`"SSH"`) ready, yet the stored banner is empty because
`port in self.COMMON_PORTS` fails. -/
theorem claim_C2_counterexample :
    (scan_port "h" 9999 "t" (.connOk (some [0x53, 0x53, 0x48]))).is_open = true ∧
    commonService 9999 = none ∧
    (scan_port "h" 9999 "t" (.connOk (some [0x53, 0x53, 0x48]))).banner = "" := by
  decide

/-- Claim C2 (amended): banner capture is attempted only when the connection
succeeded and the port is a key of `COMMON_PORTS`. For such a port the
banner is computed from the received bytes by `bannerOfBytes`; for an open
port outside the table no payload is sent and both `service` and `banner`
stay empty. -/
theorem claim_C2_banner_only_for_known_ports (host : String) (port : ℤ)
    (now : String) (bytes : List Nat) :
    (∀ svc, commonService port = some svc →
      (scan_port host port now (.connOk (some bytes))).banner =
        bannerOfBytes bytes) ∧
    (commonService port = none →
      (scan_port host port now (.connOk (some bytes))).banner = "" ∧
      (scan_port host port now (.connOk (some bytes))).service = "") := by
  constructor
  · intro svc hsvc
    by_cases hb : (pyStrip (utf8DecodeIgnore bytes)).isEmpty <;>
      simp [scan_port, hsvc, bannerOfBytes, hb]
  · intro hnone
    constructor <;> simp [scan_port, hnone]

/-- Witness for `claim_C2_banner_only_for_known_ports`: port 22 is in the
table, so the received bytes `"hi"` become the banner. -/
theorem claim_C2_witness :
    commonService 22 = some "SSH" ∧
    (scan_port "h" 22 "t" (.connOk (some [0x68, 0x69]))).banner =
      bannerOfBytes [0x68, 0x69] :=
  ⟨by decide,
    (claim_C2_banner_only_for_known_ports "h" 22 "t" [0x68, 0x69]).1 "SSH"
      (by decide)⟩

/-- Claim C7, as stated, is false on the code: received bytes
`[0xFF, 0x61]` (`b"\xffa"`) are decoded with `errors='ignore'`, which drops
the invalid byte `0xFF`, so the stored banner is `"a"`; decoding with
replacement, as the claim requires, would store `"�a"`. -/
theorem claim_C7_counterexample :
    (scan_port "h" 80 "t" (.connOk (some [0xFF, 0x61]))).banner = "a" ∧
    String.mk (pyFirstLine (pyStrip (utf8DecodeReplace [0xFF, 0x61]))) = "�a" ∧
    ("a" : String) ≠ "�a" := by
  decide

/-- Claim C7 (amended): when data is received on an open port that is in
`COMMON_PORTS`, the bytes are decoded permissively with invalid byte
sequences DROPPED (`errors='ignore'`), the whole decoded text is trimmed of
surrounding whitespace, and the stored banner is the first line of that
trimmed text. -/
theorem claim_C7_banner_decode_and_trim (host : String) (port : ℤ)
    (now : String) (svc : String) (bytes : List Nat)
    (h : commonService port = some svc) :
    (scan_port host port now (.connOk (some bytes))).banner =
      String.mk (pyFirstLine (pyStrip (utf8DecodeIgnore bytes))) := by
  by_cases hb : (pyStrip (utf8DecodeIgnore bytes)).isEmpty
  · have hnil : pyStrip (utf8DecodeIgnore bytes) = [] := by
      simpa using hb
    simp [scan_port, h, hb, hnil, pyFirstLine]
  · simp [scan_port, h, hb]

/-- Witness for `claim_C7_banner_decode_and_trim` on port 80 with bytes
`"h\nid"`. -/
theorem claim_C7_witness :
    commonService 80 = some "HTTP" ∧
    (scan_port "h" 80 "t" (.connOk (some [0x68, 0x0A, 0x69, 0x64]))).banner =
      String.mk (pyFirstLine (pyStrip (utf8DecodeIgnore [0x68, 0x0A, 0x69, 0x64]))) :=
  ⟨by decide,
    claim_C7_banner_decode_and_trim "h" 80 "t" "HTTP" [0x68, 0x0A, 0x69, 0x64]
      (by decide)⟩

/-! ## Claims: aggregation and exporters -/

/-- Claim C6: the aggregation loop of `scan_host` discards every result
with `is_open = false` and appends every result with `is_open = true`, in
completion order: the retained sequence is the previous sequence followed by
exactly the open completed results; consequently, if every previously
retained result was open, every element of the retained sequence is open. -/
theorem claim_C6_aggregation_keeps_only_open
    (acc completed : List ScanResult) :
    scan_host acc completed =
      acc ++ completed.filter (fun r => r.is_open) ∧
    ((∀ r ∈ acc, r.is_open = true) →
      ∀ r ∈ scan_host acc completed, r.is_open = true) := by
  have key : ∀ (cs a : List ScanResult),
      scan_host a cs = a ++ cs.filter (fun r => r.is_open) := by
    intro cs
    induction cs with
    | nil => intro a; simp [scan_host]
    | cons c cs ih =>
      intro a
      show scan_host (record a c) cs = _
      rw [ih (record a c), record, List.filter_cons]
      by_cases hc : c.is_open = true
      · simp [hc]
      · simp [hc]
  refine ⟨key completed acc, ?_⟩
  intro hacc r hr
  rw [key completed acc] at hr
  rcases List.mem_append.mp hr with hr | hr
  · exact hacc r hr
  · simpa using (List.mem_filter.mp hr).2

/-- Witness for `claim_C6_aggregation_keeps_only_open`: one open and one
closed completed probe. -/
theorem claim_C6_witness :
    scan_host [] [⟨"h", 22, true, "SSH", "", "t"⟩, ⟨"h", 23, false, "", "", "t"⟩] =
      [] ++ List.filter (fun r => r.is_open)
        [⟨"h", 22, true, "SSH", "", "t"⟩, ⟨"h", 23, false, "", "", "t"⟩] ∧
    ∀ r ∈ scan_host []
      [⟨"h", 22, true, "SSH", "", "t"⟩, ⟨"h", 23, false, "", "", "t"⟩],
      r.is_open = true :=
  ⟨(claim_C6_aggregation_keeps_only_open [] _).1,
   (claim_C6_aggregation_keeps_only_open [] _).2 (by simp)⟩

/-- Claim C8: with an empty retained sequence the CSV exporter performs no
write (no file is created), while the JSON exporter always writes — and for
an empty result list its document is the empty array `[]`. -/
theorem claim_C8_empty_export (results : List ScanResult) :
    (results = [] → to_csv results = none) ∧
    (to_json_write results).isSome = true ∧
    to_json_write [] = some [] := by
  refine ⟨?_, rfl, rfl⟩
  rintro rfl
  rfl

/-- Witness for `claim_C8_empty_export` at the empty result list. -/
theorem claim_C8_witness :
    to_csv ([] : List ScanResult) = none ∧
    (to_json_write ([] : List ScanResult)).isSome = true :=
  ⟨(claim_C8_empty_export []).1 rfl, (claim_C8_empty_export []).2.1⟩

/-- Claim C9: exporting a non-empty retained sequence and re-reading it
reproduces the data: each JSON object re-parses to exactly the result's
`(host, port, service, banner, scan_time)` tuple; the CSV document is the
header plus one row per result carrying the same field values as strings
(`port` stringified); and neither export carries an `is_open` field. -/
theorem claim_C9_round_trip (results : List ScanResult)
    (h : results ≠ []) :
    (to_json results).map jsonReadRecord =
      results.map
        (fun r => some (r.host, r.port, r.service, r.banner, r.scan_time)) ∧
    to_csv results = some (csvFieldnames ::
      results.map
        (fun r => [r.host, toString r.port, r.service, r.banner, r.scan_time])) ∧
    (∀ o ∈ to_json results, o.lookup "is_open" = none) ∧
    "is_open" ∉ csvFieldnames := by
  refine ⟨?_, ?_, ?_, by decide⟩
  · rw [to_json, List.map_map]
    rfl
  · rw [to_csv, if_neg (by simpa using h)]
    rfl
  · intro o ho
    rw [to_json] at ho
    obtain ⟨r, _, rfl⟩ := List.mem_map.mp ho
    rfl

/-- Witness for `claim_C9_round_trip` at a one-element retained sequence. -/
theorem claim_C9_witness :
    ([⟨"h", 22, true, "SSH", "b", "t"⟩] : List ScanResult) ≠ [] ∧
    ((to_json [⟨"h", 22, true, "SSH", "b", "t"⟩]).map jsonReadRecord =
      ([⟨"h", 22, true, "SSH", "b", "t"⟩] : List ScanResult).map
        (fun r => some (r.host, r.port, r.service, r.banner, r.scan_time)) ∧
     to_csv [⟨"h", 22, true, "SSH", "b", "t"⟩] = some (csvFieldnames ::
      ([⟨"h", 22, true, "SSH", "b", "t"⟩] : List ScanResult).map
        (fun r => [r.host, toString r.port, r.service, r.banner, r.scan_time])) ∧
     (∀ o ∈ to_json [⟨"h", 22, true, "SSH", "b", "t"⟩],
        o.lookup "is_open" = none) ∧
     "is_open" ∉ csvFieldnames) :=
  ⟨by decide, claim_C9_round_trip [⟨"h", 22, true, "SSH", "b", "t"⟩] (by decide)⟩

end PortScan
